import Mathlib

/-!
Verification of the Server Garden boid/GA core.

Shallow embedding of the program's core modules:
* the genetic-algorithm module (genome record, fitness sub-scores, synergy
  bonus, evaluation/selection, crossover, mutation, generation turnover), and
* the boid simulation module (neighbor scan, lifecycle state machine,
  trail field, nutrient attraction).

JavaScript numbers are modelled as exact rationals; every random draw of
the original code is passed in explicitly as a rational in the interval
covered by the runtime's random generator, so each stochastic operator
becomes a deterministic function of its random inputs.
-/

namespace ServerGarden

/- ========== ga.js : constants ========== -/

def PALETTE_GOOD_HUE_MIN : ℚ := 170
def PALETTE_GOOD_HUE_MAX : ℚ := 210
def PALETTE_GOOD_VAL_MIN : ℚ := 55/100
def PALETTE_GOOD_VAL_MAX : ℚ := 8/10

def PATTERN_GOOD_SPOTCOUNT_MIN : ℚ := 30
def PATTERN_GOOD_SPOTCOUNT_MAX : ℚ := 70
def PATTERN_GOOD_SPOTSIZE_MIN : ℚ := 4
def PATTERN_GOOD_SPOTSIZE_MAX : ℚ := 8

def MOVEMENT_GOOD_SPEED_MIN : ℚ := 9/10
def MOVEMENT_GOOD_SPEED_MAX : ℚ := 11/10
def MOVEMENT_GOOD_SHOWOFF_MIN : ℚ := 35/100
def MOVEMENT_GOOD_SHOWOFF_MAX : ℚ := 65/100

def SIZE_GOOD_MIN : ℚ := 8/10
def SIZE_GOOD_MAX : ℚ := 14/10

/-- The five pattern behaviour categories of RD_PATTERN_TABLE. -/
inductive PType where
  | soft_spots
  | micro_spots
  | blobs
  | fine_stripes
  | hybrid
deriving DecidableEq, Repr

/-- One entry of RD_PATTERN_TABLE (only the fields the GA reads). -/
structure RDPattern where
  id : ℤ
  spotCount : ℚ
  spotSize : ℚ
  roughness : ℚ
  ptype : PType
deriving DecidableEq, Repr

def RD_PATTERN_TABLE : List RDPattern :=
  [ ⟨0, 28, 5, 25/100, PType.soft_spots⟩,
    ⟨1, 80, 3, 7/10, PType.micro_spots⟩,
    ⟨2, 20, 9, 45/100, PType.blobs⟩,
    ⟨3, 65, 4, 8/10, PType.fine_stripes⟩,
    ⟨4, 40, 6, 55/100, PType.hybrid⟩ ]

/-- Mirrors the JavaScript array read with fallback,
RD_PATTERN_TABLE[g.patternId] ?? RD_PATTERN_TABLE[0] : an out-of-range
integer index yields undefined, so the first entry is used instead. -/
def patternMeta (pid : ℤ) : RDPattern :=
  if 0 ≤ pid ∧ pid < 5 then
    RD_PATTERN_TABLE.getD pid.toNat ⟨0, 28, 5, 25/100, PType.soft_spots⟩
  else
    RD_PATTERN_TABLE.getD 0 ⟨0, 28, 5, 25/100, PType.soft_spots⟩

/- ========== ga.js : utilities ========== -/

def clamp01 (x : ℚ) : ℚ := if x < 0 then 0 else if x > 1 then 1 else x

def inRange (v min max : ℚ) : Prop := min ≤ v ∧ v ≤ max

instance (v min max : ℚ) : Decidable (inRange v min max) :=
  inferInstanceAs (Decidable (_ ∧ _))

/-- randFloat(min, max) where r stands for the Math.random() draw,
so r ranges over [0,1). -/
def randFloat (min max r : ℚ) : ℚ := min + r * (max - min)

/-- randInt(min, maxInclusive) with r the Math.random() draw in [0,1). -/
def randIntQ (min maxInclusive : ℤ) (r : ℚ) : ℤ :=
  ⌊(min : ℚ) + r * ((maxInclusive : ℚ) + 1 - (min : ℚ))⌋

/- ========== ga.js : genome ========== -/

/-- The genome record created by createRandomGenome / crossover. -/
structure Genome where
  hue : ℚ
  value : ℚ
  patternId : ℤ
  bodyScale : ℚ
  baseSpeed : ℚ
  showOff : ℚ
  genId : ℤ
deriving DecidableEq, Repr

/- ========== ga.js : score functions ========== -/

def paletteScore (g : Genome) : ℚ :=
  (if inRange g.hue PALETTE_GOOD_HUE_MIN PALETTE_GOOD_HUE_MAX then 1/2 else 0)
  + (if inRange g.value PALETTE_GOOD_VAL_MIN PALETTE_GOOD_VAL_MAX then 1/2 else 0)

def patternScore (g : Genome) : ℚ :=
  let meta := patternMeta g.patternId
  (if inRange meta.spotCount PATTERN_GOOD_SPOTCOUNT_MIN PATTERN_GOOD_SPOTCOUNT_MAX
   then 1/2 else 0)
  + (if inRange meta.spotSize PATTERN_GOOD_SPOTSIZE_MIN PATTERN_GOOD_SPOTSIZE_MAX
     then 1/2 else 0)

def sizeScore (g : Genome) : ℚ :=
  if inRange g.bodyScale SIZE_GOOD_MIN SIZE_GOOD_MAX then 1 else 0

def movementScore (g : Genome) : ℚ :=
  (if inRange g.baseSpeed MOVEMENT_GOOD_SPEED_MIN MOVEMENT_GOOD_SPEED_MAX
   then 1/2 else 0)
  + (if inRange g.showOff MOVEMENT_GOOD_SHOWOFF_MIN MOVEMENT_GOOD_SHOWOFF_MAX
     then 1/2 else 0)

def synergyBonus (g : Genome) : ℚ :=
  let meta := patternMeta g.patternId
  let sp := g.baseSpeed
  let sh := g.showOff
  match meta.ptype with
  | PType.fine_stripes =>
      (if sp > 11/10 then 15/100 else 0) + (if sp > 12/10 then 5/100 else 0)
  | PType.blobs =>
      (if sp < 9/10 then 15/100 else 0) + (if sh < 4/10 then 5/100 else 0)
  | PType.hybrid =>
      if inRange sp (9/10) (11/10) ∧ inRange sh (4/10) (7/10) then 1/10 else 0
  | PType.micro_spots =>
      if sh > 6/10 then 1/10 else 0
  | PType.soft_spots => 0

def fitnessOf (g : Genome) : ℚ :=
  let pCol := paletteScore g
  let pPat := patternScore g
  let pSize := sizeScore g
  let pMove := movementScore g
  let synergy := synergyBonus g
  let wCol : ℚ := 2/10
  let wPat : ℚ := 35/100
  let wSize : ℚ := 2/10
  let wMove : ℚ := 25/100
  let base := pCol * wCol + pPat * wPat + pSize * wSize + pMove * wMove
  let denom := wCol + wPat + wSize + wMove
  let raw := base / denom + synergy
  clamp01 raw

/-- The genome of the spec's end-to-end fitness example. -/
def exampleGenome : Genome :=
  { hue := 190, value := 65/100, patternId := 0,
    bodyScale := 1, baseSpeed := 1, showOff := 1/2, genId := 0 }

/-- C1 (counterexample): for the genome hue=190, value=0.65, patternId=0,
bodyScale=1, baseSpeed=1, showOff=0.5 it is NOT the case that all four
sub-scores are 1 and the final fitness is 1: pattern A has spotCount = 28,
which is below PATTERN_GOOD_SPOTCOUNT_MIN = 30. -/
theorem c1_counterexample :
    ¬ (paletteScore exampleGenome = 1 ∧ patternScore exampleGenome = 1 ∧
       sizeScore exampleGenome = 1 ∧ movementScore exampleGenome = 1 ∧
       fitnessOf exampleGenome = 1) := by
  intro h
  have hp := h.2.1
  rw [show patternScore exampleGenome = 1/2 by
        norm_num [patternScore, patternMeta, RD_PATTERN_TABLE, exampleGenome, inRange,
          PATTERN_GOOD_SPOTCOUNT_MIN, PATTERN_GOOD_SPOTCOUNT_MAX,
          PATTERN_GOOD_SPOTSIZE_MIN, PATTERN_GOOD_SPOTSIZE_MAX]] at hp
  norm_num at hp

/-- C1 (amended): for that genome the palette, size and movement sub-scores
are 1, but the pattern sub-score is 1/2 (spotCount 28 lies outside [30,70]
while spotSize 5 lies inside [4,8]), the synergy bonus is 0, and the final
clamped fitness is 0.825 = 33/40. -/
theorem c1_amended :
    paletteScore exampleGenome = 1 ∧ patternScore exampleGenome = 1/2 ∧
    sizeScore exampleGenome = 1 ∧ movementScore exampleGenome = 1 ∧
    synergyBonus exampleGenome = 0 ∧ fitnessOf exampleGenome = 33/40 := by
  refine ⟨?_, ?_, ?_, ?_, ?_, ?_⟩ <;>
    norm_num [paletteScore, patternScore, sizeScore, movementScore, synergyBonus,
      fitnessOf, clamp01, patternMeta, RD_PATTERN_TABLE, exampleGenome, inRange,
      PALETTE_GOOD_HUE_MIN, PALETTE_GOOD_HUE_MAX, PALETTE_GOOD_VAL_MIN,
      PALETTE_GOOD_VAL_MAX, PATTERN_GOOD_SPOTCOUNT_MIN, PATTERN_GOOD_SPOTCOUNT_MAX,
      PATTERN_GOOD_SPOTSIZE_MIN, PATTERN_GOOD_SPOTSIZE_MAX, SIZE_GOOD_MIN,
      SIZE_GOOD_MAX, MOVEMENT_GOOD_SPEED_MIN, MOVEMENT_GOOD_SPEED_MAX,
      MOVEMENT_GOOD_SHOWOFF_MIN, MOVEMENT_GOOD_SHOWOFF_MAX]

/- ========== ga.js : crossover & mutation ========== -/

/-- The random draws consumed by one call of the crossover operator, each a
Math.random() result in [0,1). -/
structure CrossRand where
  rCross : ℚ
  rPick : ℚ
  rHue : ℚ
  rVal : ℚ
  rPat : ℚ
  rBody : ℚ
  rSpeed : ℚ
  rShow : ℚ
deriving DecidableEq, Repr

/-- All draws of a CrossRand lie in [0,1), the range of Math.random(). -/
def validCrossRand (r : CrossRand) : Prop :=
  (0 ≤ r.rCross ∧ r.rCross < 1) ∧ (0 ≤ r.rPick ∧ r.rPick < 1) ∧
  (0 ≤ r.rHue ∧ r.rHue < 1) ∧ (0 ≤ r.rVal ∧ r.rVal < 1) ∧
  (0 ≤ r.rPat ∧ r.rPat < 1) ∧ (0 ≤ r.rBody ∧ r.rBody < 1) ∧
  (0 ≤ r.rSpeed ∧ r.rSpeed < 1) ∧ (0 ≤ r.rShow ∧ r.rShow < 1)

/-- _cloneGenome: field-by-field copy of the genome record. -/
def cloneGenome (g : Genome) : Genome :=
  { hue := g.hue, value := g.value, patternId := g.patternId,
    bodyScale := g.bodyScale, baseSpeed := g.baseSpeed, showOff := g.showOff,
    genId := g.genId }

/-- _crossover(gA, gB): with probability 1 - crossoverRate clone one parent,
otherwise blend continuous traits as midpoint plus bounded noise, pick
patternId from one parent, and stamp genId = generation + 1. -/
def crossover (crossoverRate : ℚ) (generation : ℤ) (r : CrossRand)
    (gA gB : Genome) : Genome :=
  if r.rCross > crossoverRate then
    (if r.rPick < 1/2 then cloneGenome gA else cloneGenome gB)
  else
    { hue := (gA.hue + gB.hue) * (1/2) + randFloat (-10) 10 r.rHue,
      value := (gA.value + gB.value) * (1/2) + randFloat (-5/100) (5/100) r.rVal,
      patternId := if r.rPat < 1/2 then gA.patternId else gB.patternId,
      bodyScale := (gA.bodyScale + gB.bodyScale) * (1/2) + randFloat (-1/10) (1/10) r.rBody,
      baseSpeed := (gA.baseSpeed + gB.baseSpeed) * (1/2) + randFloat (-5/100) (5/100) r.rSpeed,
      showOff := (gA.showOff + gB.showOff) * (1/2) + randFloat (-5/100) (5/100) r.rShow,
      genId := generation + 1 }

/-- _mutateValue(v, min, max, amount): bounded random perturbation followed
by a hard clamp into [min, max]. -/
def mutateValue (v min max amount r : ℚ) : ℚ :=
  let span := max - min
  let delta := (r * 2 - 1) * span * amount
  let out := v + delta
  if out < min then min else if out > max then max else out

/-- The random draws consumed by one call of the mutation operator: one gate
draw per trait, one perturbation draw per continuous trait, and one draw for
the replacement patternId. -/
structure MutRand where
  rGateHue : ℚ
  rGateVal : ℚ
  rGatePat : ℚ
  rGateBody : ℚ
  rGateSpeed : ℚ
  rGateShow : ℚ
  rDeltaHue : ℚ
  rDeltaVal : ℚ
  rDeltaBody : ℚ
  rDeltaSpeed : ℚ
  rDeltaShow : ℚ
  rPid : ℚ
deriving DecidableEq, Repr

/-- All draws of a MutRand lie in [0,1), the range of Math.random(). -/
def validMutRand (r : MutRand) : Prop :=
  (0 ≤ r.rGateHue ∧ r.rGateHue < 1) ∧ (0 ≤ r.rGateVal ∧ r.rGateVal < 1) ∧
  (0 ≤ r.rGatePat ∧ r.rGatePat < 1) ∧ (0 ≤ r.rGateBody ∧ r.rGateBody < 1) ∧
  (0 ≤ r.rGateSpeed ∧ r.rGateSpeed < 1) ∧ (0 ≤ r.rGateShow ∧ r.rGateShow < 1) ∧
  (0 ≤ r.rDeltaHue ∧ r.rDeltaHue < 1) ∧ (0 ≤ r.rDeltaVal ∧ r.rDeltaVal < 1) ∧
  (0 ≤ r.rDeltaBody ∧ r.rDeltaBody < 1) ∧ (0 ≤ r.rDeltaSpeed ∧ r.rDeltaSpeed < 1) ∧
  (0 ≤ r.rDeltaShow ∧ r.rDeltaShow < 1) ∧ (0 ≤ r.rPid ∧ r.rPid < 1)

/-- _mutate(genome): per-trait Bernoulli gate, then either a clamped
perturbation (continuous traits) or a fresh uniform patternId.  The source
mutates the six fields one after another in place; since each branch writes
exactly the field it reads, the in-place sequence equals this simultaneous
record update. -/
def mutate (mutationRate : ℚ) (r : MutRand) (g : Genome) : Genome :=
  { hue := if r.rGateHue < mutationRate * (7/10)
           then mutateValue g.hue 0 360 (25/100) r.rDeltaHue else g.hue,
    value := if r.rGateVal < mutationRate * (7/10)
             then mutateValue g.value 0 1 (3/10) r.rDeltaVal else g.value,
    patternId := if r.rGatePat < mutationRate * (8/10)
                 then randIntQ 0 ((RD_PATTERN_TABLE.length : ℤ) - 1) r.rPid
                 else g.patternId,
    bodyScale := if r.rGateBody < mutationRate
                 then mutateValue g.bodyScale (1/2) 2 (4/10) r.rDeltaBody
                 else g.bodyScale,
    baseSpeed := if r.rGateSpeed < mutationRate
                 then mutateValue g.baseSpeed (1/2) (18/10) (4/10) r.rDeltaSpeed
                 else g.baseSpeed,
    showOff := if r.rGateShow < mutationRate
               then mutateValue g.showOff 0 (12/10) (5/10) r.rDeltaShow
               else g.showOff,
    genId := g.genId }

/-- The ranges the spec declares for each genome field. -/
def genomeDeclaredRange (g : Genome) : Prop :=
  (0 ≤ g.hue ∧ g.hue < 360) ∧ (0 ≤ g.value ∧ g.value ≤ 1) ∧
  (0 ≤ g.patternId ∧ g.patternId ≤ 4) ∧ (1/2 ≤ g.bodyScale ∧ g.bodyScale ≤ 2) ∧
  (1/2 ≤ g.baseSpeed ∧ g.baseSpeed ≤ 18/10) ∧ (0 ≤ g.showOff ∧ g.showOff ≤ 12/10)

/-- The clamp intervals actually enforced by _mutateValue (hue is clamped
into the closed interval [0, 360], every other bound as declared). -/
def genomeClampRange (g : Genome) : Prop :=
  (0 ≤ g.hue ∧ g.hue ≤ 360) ∧ (0 ≤ g.value ∧ g.value ≤ 1) ∧
  (0 ≤ g.patternId ∧ g.patternId ≤ 4) ∧ (1/2 ≤ g.bodyScale ∧ g.bodyScale ≤ 2) ∧
  (1/2 ≤ g.baseSpeed ∧ g.baseSpeed ≤ 18/10) ∧ (0 ≤ g.showOff ∧ g.showOff ≤ 12/10)

/-- The widest intervals a crossover child of declared-range parents can
reach: each continuous trait may exceed its declared range by the crossover
noise amplitude (10 for hue, 0.05 for value/baseSpeed/showOff, 0.1 for
bodyScale); patternId is inherited and stays in {0..4}. -/
def genomeExtendedRange (g : Genome) : Prop :=
  (-10 ≤ g.hue ∧ g.hue ≤ 370) ∧ (-5/100 ≤ g.value ∧ g.value ≤ 105/100) ∧
  (0 ≤ g.patternId ∧ g.patternId ≤ 4) ∧ (4/10 ≤ g.bodyScale ∧ g.bodyScale ≤ 21/10) ∧
  (45/100 ≤ g.baseSpeed ∧ g.baseSpeed ≤ 185/100) ∧ (-5/100 ≤ g.showOff ∧ g.showOff ≤ 125/100)

/-- The clamped output of _mutateValue always lies in [min, max]. -/
theorem mutateValue_mem (v min max amount r : ℚ) (h : min ≤ max) :
    min ≤ mutateValue v min max amount r ∧ mutateValue v min max amount r ≤ max := by
  unfold mutateValue
  dsimp only
  split_ifs with h1 h2
  · exact ⟨le_refl _, h⟩
  · exact ⟨h, le_refl _⟩
  · exact ⟨le_of_not_lt h1, le_of_not_lt h2⟩

/-- _cloneGenome copies every field, so it is the identity on genome values. -/
theorem cloneGenome_eq (g : Genome) : cloneGenome g = g := rfl

/-- A genome inside the declared ranges is inside the extended ranges. -/
theorem declaredRange_subset_extendedRange (g : Genome)
    (h : genomeDeclaredRange g) : genomeExtendedRange g := by
  obtain ⟨⟨h1a, h1b⟩, ⟨h2a, h2b⟩, ⟨h3a, h3b⟩, ⟨h4a, h4b⟩, ⟨h5a, h5b⟩, h6a, h6b⟩ := h
  exact ⟨⟨by linarith, by linarith⟩, ⟨by linarith, by linarith⟩,
    ⟨h3a, h3b⟩, ⟨by linarith, by linarith⟩, ⟨by linarith, by linarith⟩,
    by linarith, by linarith⟩

/-- A boundary parent genome: every field is inside its declared range,
with hue close to the upper end. -/
def gEdge : Genome :=
  { hue := 359, value := 1/2, patternId := 0,
    bodyScale := 1, baseSpeed := 1, showOff := 1/2, genId := 0 }

/-- Crossover draws that push the child hue above 360
(noise draw 0.99 gives hue noise +9.8). -/
def crEdge : CrossRand := ⟨0, 0, 99/100, 0, 0, 0, 0, 0⟩

/-- Mutation draws where only the hue gate fires, with a near-maximal
positive perturbation, so the hue is clamped to exactly 360. -/
def mutEdge : MutRand :=
  ⟨0, 999/1000, 999/1000, 999/1000, 999/1000, 999/1000,
   999/1000, 0, 0, 0, 0, 0⟩

/-- C2 (counterexample): crossover of two declared-range parents is NOT
hard-clamped — with valid random draws the child hue becomes 368.8,
outside [0,360); and mutate can clamp hue to exactly 360, which is outside
the declared half-open range [0,360). -/
theorem c2_counterexample :
    genomeDeclaredRange gEdge ∧ validCrossRand crEdge ∧ validMutRand mutEdge ∧
    (crossover 1 0 crEdge gEdge gEdge).hue = 1844/5 ∧
    ¬ genomeDeclaredRange (crossover 1 0 crEdge gEdge gEdge) ∧
    (mutate (3/10) mutEdge gEdge).hue = 360 ∧
    ¬ genomeDeclaredRange (mutate (3/10) mutEdge gEdge) := by
  refine ⟨?_, ?_, ?_, ?_, ?_, ?_, ?_⟩ <;>
    norm_num [genomeDeclaredRange, validCrossRand, validMutRand, crossover,
      mutate, mutateValue, cloneGenome, randFloat, gEdge, crEdge, mutEdge]

/-- Mutation preserves the clamp ranges: every perturbed trait is
hard-clamped into its interval and the replacement patternId lies in {0..4}. -/
theorem mutate_preserves_clampRange (mutationRate : ℚ) (r : MutRand) (g : Genome)
    (hr : validMutRand r) (hg : genomeClampRange g) :
    genomeClampRange (mutate mutationRate r g) := by
  obtain ⟨⟨h1a, h1b⟩, ⟨h2a, h2b⟩, ⟨h3a, h3b⟩, ⟨h4a, h4b⟩, ⟨h5a, h5b⟩, h6a, h6b⟩ := hg
  obtain ⟨_, _, _, _, _, _, _, _, _, _, _, hpa, hpb⟩ := hr
  unfold genomeClampRange mutate
  refine ⟨?_, ?_, ?_, ?_, ?_, ?_⟩ <;> dsimp only
  · split_ifs with h
    · exact mutateValue_mem _ _ _ _ _ (by norm_num)
    · exact ⟨h1a, h1b⟩
  · split_ifs with h
    · exact mutateValue_mem _ _ _ _ _ (by norm_num)
    · exact ⟨h2a, h2b⟩
  · split_ifs with h
    · unfold randIntQ
      constructor
      · refine Int.floor_nonneg.mpr ?_
        push_cast
        nlinarith
      · refine Int.lt_add_one_iff.mp ?_
        refine Int.floor_lt.mpr ?_
        push_cast
        simp only [RD_PATTERN_TABLE, List.length_cons, List.length_nil]
        push_cast
        nlinarith
    · exact ⟨h3a, h3b⟩
  · split_ifs with h
    · exact mutateValue_mem _ _ _ _ _ (by norm_num)
    · exact ⟨h4a, h4b⟩
  · split_ifs with h
    · exact mutateValue_mem _ _ _ _ _ (by norm_num)
    · exact ⟨h5a, h5b⟩
  · split_ifs with h
    · exact mutateValue_mem _ _ _ _ _ (by norm_num)
    · exact ⟨h6a, h6b⟩

/-- A crossover child of declared-range parents lies in the extended ranges
(the operator performs no clamping). -/
theorem crossover_in_extendedRange (crossoverRate : ℚ) (generation : ℤ)
    (r : CrossRand) (gA gB : Genome) (hr : validCrossRand r)
    (hgA : genomeDeclaredRange gA) (hgB : genomeDeclaredRange gB) :
    genomeExtendedRange (crossover crossoverRate generation r gA gB) := by
  obtain ⟨⟨hA1a, hA1b⟩, ⟨hA2a, hA2b⟩, ⟨hA3a, hA3b⟩, ⟨hA4a, hA4b⟩,
    ⟨hA5a, hA5b⟩, hA6a, hA6b⟩ := hgA
  obtain ⟨⟨hB1a, hB1b⟩, ⟨hB2a, hB2b⟩, ⟨hB3a, hB3b⟩, ⟨hB4a, hB4b⟩,
    ⟨hB5a, hB5b⟩, hB6a, hB6b⟩ := hgB
  obtain ⟨⟨hc1, hc2⟩, ⟨hp1, hp2⟩, ⟨hh1, hh2⟩, ⟨hv1, hv2⟩, ⟨hq1, hq2⟩,
    ⟨hb1, hb2⟩, ⟨hs1, hs2⟩, hw1, hw2⟩ := hr
  unfold crossover
  split_ifs with h1 h2 h3
  · rw [cloneGenome_eq]
    exact declaredRange_subset_extendedRange gA
      ⟨⟨hA1a, hA1b⟩, ⟨hA2a, hA2b⟩, ⟨hA3a, hA3b⟩, ⟨hA4a, hA4b⟩,
        ⟨hA5a, hA5b⟩, hA6a, hA6b⟩
  · rw [cloneGenome_eq]
    exact declaredRange_subset_extendedRange gB
      ⟨⟨hB1a, hB1b⟩, ⟨hB2a, hB2b⟩, ⟨hB3a, hB3b⟩, ⟨hB4a, hB4b⟩,
        ⟨hB5a, hB5b⟩, hB6a, hB6b⟩
  · unfold genomeExtendedRange randFloat
    dsimp only
    refine ⟨⟨by linarith, by linarith⟩, ⟨by linarith, by linarith⟩,
      ⟨hA3a, hA3b⟩, ⟨by linarith, by linarith⟩, ⟨by linarith, by linarith⟩,
      by linarith, by linarith⟩
  · unfold genomeExtendedRange randFloat
    dsimp only
    refine ⟨⟨by linarith, by linarith⟩, ⟨by linarith, by linarith⟩,
      ⟨hB3a, hB3b⟩, ⟨by linarith, by linarith⟩, ⟨by linarith, by linarith⟩,
      by linarith, by linarith⟩

/-- C2 (amended): mutation is range-preserving with every perturbed trait
hard-clamped: any genome inside the clamp ranges (hue in [0,360], all other
fields in their declared ranges) stays inside them after mutate, and the
replacement patternId stays in {0..4}.  Crossover is not clamped: a child of
declared-range parents is only guaranteed to lie in the extended ranges that
widen each declared interval by the crossover noise amplitude. -/
theorem c2_amended :
    (∀ (mutationRate : ℚ) (r : MutRand) (g : Genome),
        validMutRand r → genomeClampRange g →
        genomeClampRange (mutate mutationRate r g)) ∧
    (∀ (crossoverRate : ℚ) (generation : ℤ) (r : CrossRand) (gA gB : Genome),
        validCrossRand r → genomeDeclaredRange gA → genomeDeclaredRange gB →
        genomeExtendedRange (crossover crossoverRate generation r gA gB)) :=
  ⟨mutate_preserves_clampRange, crossover_in_extendedRange⟩

/-- All-zero mutation draws (every gate fires, zero-centred perturbations). -/
def mutZero : MutRand := ⟨0, 0, 0, 0, 0, 0, 0, 0, 0, 0, 0, 0⟩

/-- All-zero crossover draws. -/
def crZero : CrossRand := ⟨0, 0, 0, 0, 0, 0, 0, 0⟩

/-- C2 witness: the amended range theorem applied to concrete draws and the
concrete example genome. -/
theorem c2_amended_witness :
    (validMutRand mutZero ∧ genomeClampRange exampleGenome ∧
      genomeClampRange (mutate (3/10) mutZero exampleGenome)) ∧
    (validCrossRand crZero ∧ genomeDeclaredRange exampleGenome ∧
      genomeExtendedRange (crossover 1 0 crZero exampleGenome exampleGenome)) := by
  have h1 : validMutRand mutZero := by norm_num [validMutRand, mutZero]
  have h2 : genomeClampRange exampleGenome := by
    norm_num [genomeClampRange, exampleGenome]
  have h3 : validCrossRand crZero := by norm_num [validCrossRand, crZero]
  have h4 : genomeDeclaredRange exampleGenome := by
    norm_num [genomeDeclaredRange, exampleGenome]
  exact ⟨⟨h1, h2, c2_amended.1 (3/10) mutZero exampleGenome h1 h2⟩,
    ⟨h3, h4, c2_amended.2 1 0 crZero exampleGenome exampleGenome h3 h4 h4⟩⟩

/- ========== ga.js : population state ========== -/

/-- The mutable state of a GeneticAlgorithm instance. -/
structure GAState where
  populationSize : ℕ
  survivalRate : ℚ
  mutationRate : ℚ
  crossoverRate : ℚ
  population : List Genome
  fitness : List ℚ
  generation : ℤ
  lastSortedIndices : List ℕ
  lastSurvivors : List ℕ
  lastDoomed : List ℕ
deriving DecidableEq, Repr

/-- The record returned by evaluatePopulation. -/
structure EvalResult where
  fitness : List ℚ
  sortedIndices : List ℕ
  survivors : List ℕ
  doomed : List ℕ
deriving DecidableEq, Repr

/-- The order realized by the source's indices.sort((a, b) =>
fitness[b] - fitness[a]).  JavaScript Array.prototype.sort is stable
(ECMAScript 2019), and a stable sort of the index-ascending list
0,...,N-1 under the descending-fitness comparator yields exactly the
unique permutation sorted by this total lexicographic order: higher
fitness first, ties broken by lower original index first. -/
def fitRel (fit : List ℚ) (a b : ℕ) : Prop :=
  fit.getD b 0 < fit.getD a 0 ∨ (fit.getD a 0 = fit.getD b 0 ∧ a ≤ b)

instance (fit : List ℚ) : DecidableRel (fitRel fit) := fun a b => by
  unfold fitRel
  infer_instance

instance (fit : List ℚ) : IsTotal ℕ (fitRel fit) := ⟨by
  intro a b
  unfold fitRel
  rcases lt_trichotomy (fit.getD a 0) (fit.getD b 0) with h | h | h
  · exact Or.inr (Or.inl h)
  · rcases Nat.le_total a b with hab | hab
    · exact Or.inl (Or.inr ⟨h, hab⟩)
    · exact Or.inr (Or.inr ⟨h.symm, hab⟩)
  · exact Or.inl (Or.inl h)⟩

instance (fit : List ℚ) : IsTrans ℕ (fitRel fit) := ⟨by
  intro a b c hab hbc
  unfold fitRel at hab hbc ⊢
  rcases hab with h1 | ⟨h1, h1i⟩ <;> rcases hbc with h2 | ⟨h2, h2i⟩
  · exact Or.inl (lt_trans h2 h1)
  · refine Or.inl ?_
    rw [← h2]
    exact h1
  · refine Or.inl ?_
    rw [h1]
    exact h2
  · exact Or.inr ⟨h1.trans h2, le_trans h1i h2i⟩⟩

/-- survivorCount = Math.max(1, Math.floor(N * survivalRate)). -/
def survivorCountOf (N : ℕ) (rate : ℚ) : ℕ := (max 1 ⌊(N : ℚ) * rate⌋).toNat

/-- evaluatePopulation(): recompute every fitness, sort indices by
descending fitness (stable), split into survivors/doomed, cache the result;
throws when the population does not have its declared size. -/
def evaluatePopulation (st : GAState) : Except String (GAState × EvalResult) :=
  let N := st.populationSize
  if st.population.length ≠ N then
    Except.error ("[GA] population not initialized; call initPopulation first")
  else
    let fit := st.population.map fitnessOf
    let indices := List.insertionSort (fitRel fit) (List.range N)
    let sc := survivorCountOf N st.survivalRate
    let survivors := indices.take sc
    let doomed := indices.drop sc
    Except.ok
      ({ st with fitness := fit, lastSortedIndices := indices,
                 lastSurvivors := survivors, lastDoomed := doomed },
       { fitness := fit, sortedIndices := indices,
         survivors := survivors, doomed := doomed })

/-- C4: on an initialized population, evaluatePopulation succeeds and
returns sortedIndices that are a permutation of 0..N-1, sorted by descending
fitness with ties broken by the original index (stable sort); survivors are
the first max(1, floor(N * survivalRate)) entries and doomed the rest, so
their lengths always sum to N; with N = 40 and survivalRate = 0.4 this gives
16 survivors and 24 doomed. -/
theorem c4_evaluatePopulation (st : GAState)
    (h : st.population.length = st.populationSize) :
    ∃ st1 res, evaluatePopulation st = Except.ok (st1, res) ∧
      res.sortedIndices.Perm (List.range st.populationSize) ∧
      List.Sorted (fitRel (st.population.map fitnessOf)) res.sortedIndices ∧
      res.survivors = res.sortedIndices.take
        (survivorCountOf st.populationSize st.survivalRate) ∧
      res.doomed = res.sortedIndices.drop
        (survivorCountOf st.populationSize st.survivalRate) ∧
      res.survivors.length + res.doomed.length = st.populationSize ∧
      (st.populationSize = 40 → st.survivalRate = 4/10 →
        res.survivors.length = 16 ∧ res.doomed.length = 24) := by
  have hlen : (List.insertionSort (fitRel (st.population.map fitnessOf))
      (List.range st.populationSize)).length = st.populationSize := by
    rw [(List.perm_insertionSort _ _).length_eq, List.length_range]
  unfold evaluatePopulation
  rw [if_neg (not_ne_iff.mpr h)]
  refine ⟨_, _, rfl, ?_, ?_, ?_, ?_, ?_, ?_⟩ <;> dsimp only
  · exact List.perm_insertionSort _ _
  · exact List.sorted_insertionSort _ _
  · rw [List.length_take, List.length_drop, hlen]
    omega
  · intro h40 hrate
    have hsc : survivorCountOf st.populationSize st.survivalRate = 16 := by
      rw [h40, hrate]
      unfold survivorCountOf
      rw [show ((40 : ℕ) : ℚ) * (4/10) = ((16 : ℤ) : ℚ) by norm_num]
      rw [Int.floor_intCast]
      rfl
    rw [List.length_take, List.length_drop, hlen, hsc, h40]
    omega

/-- A concrete GA state: 40 copies of the example genome, survival rate 0.4. -/
def gaW : GAState :=
  { populationSize := 40, survivalRate := 4/10, mutationRate := 3/10,
    crossoverRate := 1, population := List.replicate 40 exampleGenome,
    fitness := List.replicate 40 0, generation := 0,
    lastSortedIndices := [], lastSurvivors := [], lastDoomed := [] }

/-- C4 witness: the evaluation theorem applied to the concrete 40-slot
state. -/
theorem c4_evaluatePopulation_witness :
    gaW.population.length = gaW.populationSize ∧
    (∃ st1 res, evaluatePopulation gaW = Except.ok (st1, res) ∧
      res.sortedIndices.Perm (List.range gaW.populationSize) ∧
      List.Sorted (fitRel (gaW.population.map fitnessOf)) res.sortedIndices ∧
      res.survivors = res.sortedIndices.take
        (survivorCountOf gaW.populationSize gaW.survivalRate) ∧
      res.doomed = res.sortedIndices.drop
        (survivorCountOf gaW.populationSize gaW.survivalRate) ∧
      res.survivors.length + res.doomed.length = gaW.populationSize ∧
      (gaW.populationSize = 40 → gaW.survivalRate = 4/10 →
        res.survivors.length = 16 ∧ res.doomed.length = 24)) :=
  ⟨by simp [gaW], c4_evaluatePopulation gaW (by simp [gaW])⟩

/- ========== ga.js : selection & generation turnover ========== -/

/-- Placeholder genome for out-of-range JavaScript array reads; all indices
stay in range on every path exercised below. -/
def defaultGenome : Genome := ⟨0, 0, 0, 0, 0, 0, 0⟩

/-- _selectParentIndex(): tournament of the k = 3 uniformly drawn indices in
picks, keeping the first-seen strict maximum of fitness.  bestFit starts at
-Infinity in the source, so the first pick always replaces the initial null
candidate, which the none case mirrors. -/
def selectParentIndex (fit : List ℚ) (picks : List ℕ) : ℕ :=
  (picks.foldl
    (fun best idx =>
      match best with
      | none => some (idx, fit.getD idx 0)
      | some (bi, bf) =>
          if fit.getD idx 0 > bf then some (idx, fit.getD idx 0)
          else some (bi, bf))
    none).elim 0 Prod.fst

/-- The random draws consumed when refilling one doomed slot: the two
tournament index triples and the crossover/mutation draws. -/
structure SlotRand where
  picksA : List ℕ
  picksB : List ℕ
  cross : CrossRand
  mutDraws : MutRand

/-- The child genome built for a doomed slot:
mutate(crossover(parentA, parentB)) followed by the explicit
child.genId = generation + 1 assignment of the source. -/
def childFor (st : GAState) (rand : ℕ → SlotRand) (idx : ℕ) : Genome :=
  let r := rand idx
  let pA := st.population.getD (selectParentIndex st.fitness r.picksA) defaultGenome
  let pB := st.population.getD (selectParentIndex st.fitness r.picksB) defaultGenome
  let child := crossover st.crossoverRate st.generation r.cross pA pB
  let child2 := mutate st.mutationRate r.mutDraws child
  { child2 with genId := st.generation + 1 }

/-- One assignment loop of nextGeneration: newPop[idx] = v(idx) for each
listed index.  The JavaScript target array new Array(N) always has length N;
a slot no loop wrote stays a hole (undefined), modelled as none. -/
def fillSlots (v : ℕ → Genome) (idxs : List ℕ) (a : List (Option Genome)) :
    List (Option Genome) :=
  idxs.foldl (fun acc idx => acc.set idx (some (v idx))) a

/-- The success path of nextGeneration(): survivors cloned in place, doomed
slots refilled with fresh children, generation incremented and the cached
evaluation cleared.  Unassigned slots (impossible when survivors and doomed
cover 0..N-1) are read out as the placeholder genome. -/
def nextGenerationCore (rand : ℕ → SlotRand) (st : GAState) : GAState :=
  let N := st.populationSize
  let init : List (Option Genome) := List.replicate N none
  let afterSurv := fillSlots
    (fun idx => cloneGenome (st.population.getD idx defaultGenome))
    st.lastSurvivors init
  let newPopOpt := fillSlots (childFor st rand) st.lastDoomed afterSurv
  { st with
    population := newPopOpt.map (fun o => o.getD defaultGenome),
    generation := st.generation + 1,
    fitness := List.replicate N 0,
    lastSortedIndices := [], lastSurvivors := [], lastDoomed := [] }

/-- nextGeneration(): evaluates first when no evaluation is cached
(propagating its failure), then rebuilds the population. -/
def nextGeneration (rand : ℕ → SlotRand) (st : GAState) :
    Except String GAState :=
  match (if st.lastSortedIndices.isEmpty
         then (evaluatePopulation st).map Prod.fst
         else Except.ok st) with
  | Except.error e => Except.error e
  | Except.ok st1 => Except.ok (nextGenerationCore rand st1)

theorem fillSlots_length (v : ℕ → Genome) (idxs : List ℕ)
    (a : List (Option Genome)) : (fillSlots v idxs a).length = a.length := by
  induction idxs generalizing a with
  | nil => rfl
  | cons i t ih =>
      show (fillSlots v t (a.set i (some (v i)))).length = a.length
      rw [ih, List.length_set]

theorem fillSlots_getElem? (v : ℕ → Genome) (idxs : List ℕ)
    (a : List (Option Genome)) (j : ℕ) :
    (fillSlots v idxs a)[j]? =
      if j ∈ idxs ∧ j < a.length then some (some (v j)) else a[j]? := by
  induction idxs generalizing a with
  | nil => simp [fillSlots]
  | cons i t ih =>
      show (fillSlots v t (a.set i (some (v i))))[j]? = _
      rw [ih, List.length_set]
      by_cases hmem : j ∈ t ∧ j < a.length
      · rw [if_pos hmem, if_pos ⟨List.mem_cons_of_mem i hmem.1, hmem.2⟩]
      · rw [if_neg hmem]
        by_cases hij : i = j
        · subst hij
          by_cases hlt : i < a.length
          · rw [List.getElem?_set_eq_of_lt _ hlt,
              if_pos ⟨List.mem_cons_self i t, hlt⟩]
          · rw [List.set_eq_of_length_le (by omega),
              if_neg (fun hc => hlt hc.2)]
        · rw [List.getElem?_set_ne hij,
            if_neg (by
              rintro ⟨hj, hl⟩
              rcases List.mem_cons.mp hj with rfl | hj2
              · exact hij rfl
              · exact hmem ⟨hj2, hl⟩)]

/-- C5: after an evaluation (cached split covering the slots 0..N-1),
nextGeneration succeeds, keeps the population length at N, preserves every
survivor slot's genome by value at its original index, replaces every doomed
slot by mutate(crossover(parentA, parentB)) stamped with
genId = generation + 1, and increments the generation counter. -/
theorem c5_nextGeneration (st : GAState) (rand : ℕ → SlotRand)
    (hcache : st.lastSortedIndices ≠ [])
    (hperm : (st.lastSurvivors ++ st.lastDoomed).Perm
      (List.range st.populationSize)) :
    nextGeneration rand st = Except.ok (nextGenerationCore rand st) ∧
    (nextGenerationCore rand st).population.length = st.populationSize ∧
    (∀ idx ∈ st.lastSurvivors,
      (nextGenerationCore rand st).population.getD idx defaultGenome =
        st.population.getD idx defaultGenome) ∧
    (∀ idx ∈ st.lastDoomed,
      (nextGenerationCore rand st).population.getD idx defaultGenome =
        childFor st rand idx ∧
      ((nextGenerationCore rand st).population.getD idx defaultGenome).genId =
        st.generation + 1) ∧
    (nextGenerationCore rand st).generation = st.generation + 1 := by
  have hnodup : (st.lastSurvivors ++ st.lastDoomed).Nodup :=
    hperm.nodup_iff.mpr (List.nodup_range _)
  have hdisj := (List.nodup_append.mp hnodup).2.2
  have hbound : ∀ idx, idx ∈ st.lastSurvivors ++ st.lastDoomed →
      idx < st.populationSize := by
    intro idx hidx
    exact List.mem_range.mp (hperm.mem_iff.mp hidx)
  have hsurvlen : (fillSlots
      (fun idx => cloneGenome (st.population.getD idx defaultGenome))
      st.lastSurvivors
      (List.replicate st.populationSize (none : Option Genome))).length =
      st.populationSize := by
    rw [fillSlots_length, List.length_replicate]
  refine ⟨?_, ?_, ?_, ?_, ?_⟩
  · unfold nextGeneration
    rw [if_neg (by simp [List.isEmpty_iff, hcache])]
  · unfold nextGenerationCore
    dsimp only
    rw [List.length_map, fillSlots_length, fillSlots_length,
      List.length_replicate]
  · intro idx hidx
    have h1 : idx < st.populationSize :=
      hbound idx (List.mem_append.mpr (Or.inl hidx))
    have hnd : idx ∉ st.lastDoomed := fun hc => hdisj hidx hc
    unfold nextGenerationCore
    dsimp only
    rw [List.getD_eq_getElem?_getD, List.getElem?_map, fillSlots_getElem?,
      if_neg (fun hc => hnd hc.1), fillSlots_getElem?,
      if_pos ⟨hidx, by rw [List.length_replicate]; exact h1⟩]
    simp [cloneGenome_eq]
  · intro idx hidx
    have h1 : idx < st.populationSize :=
      hbound idx (List.mem_append.mpr (Or.inr hidx))
    constructor
    · unfold nextGenerationCore
      dsimp only
      rw [List.getD_eq_getElem?_getD, List.getElem?_map, fillSlots_getElem?,
        if_pos ⟨hidx, by rw [hsurvlen]; exact h1⟩]
      simp
    · unfold nextGenerationCore
      dsimp only
      rw [List.getD_eq_getElem?_getD, List.getElem?_map, fillSlots_getElem?,
        if_pos ⟨hidx, by rw [hsurvlen]; exact h1⟩]
      simp [childFor]
  · unfold nextGenerationCore
    dsimp only

/-- A small evaluated GA state: two slots, slot 0 survives, slot 1 doomed. -/
def gaSmall : GAState :=
  { populationSize := 2, survivalRate := 1/2, mutationRate := 3/10,
    crossoverRate := 1, population := [exampleGenome, gEdge],
    fitness := [1, 0], generation := 0,
    lastSortedIndices := [0, 1], lastSurvivors := [0], lastDoomed := [1] }

/-- A constant random stream for the turnover witness. -/
def randW : ℕ → SlotRand := fun _ => ⟨[0, 0, 0], [0, 0, 0], crZero, mutZero⟩

/-- C5 witness: the turnover theorem applied to the concrete two-slot
state. -/
theorem c5_nextGeneration_witness :
    gaSmall.lastSortedIndices ≠ [] ∧
    (gaSmall.lastSurvivors ++ gaSmall.lastDoomed).Perm
      (List.range gaSmall.populationSize) ∧
    (nextGeneration randW gaSmall = Except.ok (nextGenerationCore randW gaSmall) ∧
     (nextGenerationCore randW gaSmall).population.length = gaSmall.populationSize ∧
     (∀ idx ∈ gaSmall.lastSurvivors,
       (nextGenerationCore randW gaSmall).population.getD idx defaultGenome =
         gaSmall.population.getD idx defaultGenome) ∧
     (∀ idx ∈ gaSmall.lastDoomed,
       (nextGenerationCore randW gaSmall).population.getD idx defaultGenome =
         childFor gaSmall randW idx ∧
       ((nextGenerationCore randW gaSmall).population.getD idx defaultGenome).genId =
         gaSmall.generation + 1) ∧
     (nextGenerationCore randW gaSmall).generation = gaSmall.generation + 1) :=
  ⟨by simp [gaSmall], by decide,
   c5_nextGeneration gaSmall randW (by simp [gaSmall]) (by decide)⟩

/-- C9: calling evaluatePopulation on a state whose population has not been
initialized to its declared size signals an error; nextGeneration without a
cached evaluation auto-evaluates first, hence signals the same error on an
uninitialized population instead of silently doing nothing, and on a
successfully auto-evaluated state proceeds with the turnover. -/
theorem c9_error_handling (st : GAState) (rand : ℕ → SlotRand) :
    (st.population.length ≠ st.populationSize →
      (∃ e, evaluatePopulation st = Except.error e) ∧
      (st.lastSortedIndices = [] →
        ∃ e, nextGeneration rand st = Except.error e)) ∧
    (st.lastSortedIndices = [] →
      ∀ st1 res, evaluatePopulation st = Except.ok (st1, res) →
        nextGeneration rand st = Except.ok (nextGenerationCore rand st1)) := by
  constructor
  · intro h
    have heval : evaluatePopulation st =
        Except.error ("[GA] population not initialized; call initPopulation first") := by
      unfold evaluatePopulation
      rw [if_pos h]
    refine ⟨⟨_, heval⟩, ?_⟩
    intro hempty
    have hng : nextGeneration rand st = Except.error
        ("[GA] population not initialized; call initPopulation first") := by
      unfold nextGeneration
      rw [if_pos (by simp [List.isEmpty_iff, hempty]), heval]
      rfl
    exact ⟨_, hng⟩
  · intro hempty st1 res hok
    unfold nextGeneration
    rw [if_pos (by simp [List.isEmpty_iff, hempty]), hok]
    rfl

/-- An uninitialized GA state: declared size 40, empty population. -/
def gaBad : GAState :=
  { populationSize := 40, survivalRate := 4/10, mutationRate := 3/10,
    crossoverRate := 1, population := [], fitness := [], generation := 0,
    lastSortedIndices := [], lastSurvivors := [], lastDoomed := [] }

/-- C9 witness: the error-handling theorem applied to the concrete
uninitialized state. -/
theorem c9_error_handling_witness :
    gaBad.population.length ≠ gaBad.populationSize ∧
    gaBad.lastSortedIndices = [] ∧
    (∃ e, evaluatePopulation gaBad = Except.error e) ∧
    (∃ e, nextGeneration randW gaBad = Except.error e) :=
  ⟨by simp [gaBad], by simp [gaBad],
   ((c9_error_handling gaBad randW).1 (by simp [gaBad])).1,
   ((c9_error_handling gaBad randW).1 (by simp [gaBad])).2 (by simp [gaBad])⟩

/- ========== boids.js : agents and neighbor scan ========== -/

/-- A 3-vector of JavaScript numbers. -/
structure Vec3 where
  x : ℚ
  y : ℚ
  z : ℚ
deriving DecidableEq, Repr

/-- The four lifecycle states of _states[i]. -/
inductive BState where
  | alive
  | dying
  | dead
  | newborn
deriving DecidableEq, Repr

/-- The per-boid simulation state the neighbor scan reads. -/
structure BAgent where
  state : BState
  pos : Vec3
  vel : Vec3
deriving DecidableEq, Repr

def CONFIG_neighborRadius : ℚ := 8
def CONFIG_separationRadius : ℚ := 3

def vadd (a b : Vec3) : Vec3 := ⟨a.x + b.x, a.y + b.y, a.z + b.z⟩

def vsub (a b : Vec3) : Vec3 := ⟨a.x - b.x, a.y - b.y, a.z - b.z⟩

/-- Squared Euclidean distance. -/
def distSq (a b : Vec3) : ℚ :=
  (a.x - b.x)^2 + (a.y - b.y)^2 + (a.z - b.z)^2

/-- The accumulators of one agent's inner neighbor loop: summed neighbor
velocity and position with the neighbor count (alignment/cohesion), and the
separation contributions.  The source sums (1/d) * (pi - pj) over the
separation neighbors; we record the list of terms ((pi - pj), d^2), each of
which the source scales by 1/sqrt(d^2) before summing, so an agent
contributes to the separation force exactly when it appears in sepTerms. -/
structure ScanAcc where
  sumV : Vec3
  sumP : Vec3
  sepTerms : List (Vec3 × ℚ)
  cnt : ℕ
deriving DecidableEq, Repr

/-- One iteration of the inner j-loop of updateBoidsLogic for agent i at
position pi.  The source compares the Euclidean distance d = sqrt(d2)
against the radii 8 and 3 and the floor 1e-3; all quantities being
nonnegative, those comparisons are equivalent to the squared comparisons
used here. -/
def scanStep (i : ℕ) (pi : Vec3) (acc : ScanAcc) (ja : ℕ × BAgent) : ScanAcc :=
  if ja.1 ≠ i ∧ ja.2.state ≠ BState.dead then
    let d2 := distSq pi ja.2.pos
    let acc1 :=
      if d2 < CONFIG_neighborRadius ^ 2 then
        { acc with sumV := vadd acc.sumV ja.2.vel,
                   sumP := vadd acc.sumP ja.2.pos, cnt := acc.cnt + 1 }
      else acc
    if d2 < CONFIG_separationRadius ^ 2 ∧ d2 > (1/1000) ^ 2 then
      { acc1 with sepTerms := acc1.sepTerms ++ [(vsub pi ja.2.pos, d2)] }
    else acc1
  else acc

/-- The whole inner neighbor loop for agent i over the indexed agent list. -/
def neighborScan (i : ℕ) (pi : Vec3) (agents : List (ℕ × BAgent)) : ScanAcc :=
  agents.foldl (scanStep i pi) ⟨⟨0, 0, 0⟩, ⟨0, 0, 0⟩, [], 0⟩

/-- The per-agent body of the physics pass of updateBoidsLogic: the single
early exit is the Dead check (the agent is hidden and skipped before any
position/velocity update); upd abstracts the integration body, which
depends on the external terrain capability. -/
def physUpdate (upd : ℕ → BAgent → BAgent) (i : ℕ) (a : BAgent) : BAgent :=
  if a.state = BState.dead then a else upd i a

/-- A dying agent contributes to the scan at some field of ScanAcc. -/
theorem scanStep_skips_dead (i : ℕ) (pi : Vec3) (acc : ScanAcc)
    (ja : ℕ × BAgent) (h : ja.2.state = BState.dead) :
    scanStep i pi acc ja = acc := by
  unfold scanStep
  rw [if_neg (fun hc => hc.2 h)]

/-- C3 (amended): removing the Dead agents from the scanned list never
changes the accumulated alignment/cohesion/separation data — Dead agents
are excluded from neighbor-force accumulation — and the physics update
leaves a Dead agent untouched; Dying agents, by contrast, still take part
in the scan (see the counterexample). -/
theorem c3_amended :
    (∀ (i : ℕ) (pi : Vec3) (agents : List (ℕ × BAgent)),
      neighborScan i pi (agents.filter (fun ja => ja.2.state ≠ BState.dead)) =
        neighborScan i pi agents) ∧
    (∀ (upd : ℕ → BAgent → BAgent) (i : ℕ) (a : BAgent),
      physUpdate upd i { a with state := BState.dead } =
        { a with state := BState.dead }) := by
  constructor
  · intro i pi agents
    unfold neighborScan
    generalize (⟨⟨0, 0, 0⟩, ⟨0, 0, 0⟩, [], 0⟩ : ScanAcc) = acc
    induction agents generalizing acc with
    | nil => rfl
    | cons ja t ih =>
        by_cases hd : ja.2.state = BState.dead
        · rw [List.filter_cons_of_neg (by simp [hd]), List.foldl_cons,
            scanStep_skips_dead i pi acc ja hd]
          exact ih acc
        · rw [List.filter_cons_of_pos (by simp [hd]), List.foldl_cons,
            List.foldl_cons]
          exact ih _
  · intro upd i a
    simp [physUpdate]

/-- A single Dying agent within neighbor radius of the query agent. -/
def dyList : List (ℕ × BAgent) :=
  [(1, ⟨BState.dying, ⟨4, 0, 0⟩, ⟨1, 0, 0⟩⟩)]

/-- C3 (counterexample): a Dying agent is NOT excluded from the neighbor
scan: scanning a single dying agent at distance 4 counts one neighbor,
while scanning with Dead-and-Dying agents removed counts none. -/
theorem c3_counterexample :
    neighborScan 0 ⟨0, 0, 0⟩ dyList ≠
      neighborScan 0 ⟨0, 0, 0⟩ (dyList.filter
        (fun ja => ja.2.state ≠ BState.dead ∧ ja.2.state ≠ BState.dying)) := by
  have h1 : (neighborScan 0 ⟨0, 0, 0⟩ dyList).cnt = 1 := by
    have hcond : distSq ⟨0, 0, 0⟩ (⟨4, 0, 0⟩ : Vec3) = 16 := by
      norm_num [distSq]
    simp only [neighborScan, dyList, List.foldl_cons, List.foldl_nil, scanStep]
    rw [if_pos (by simp), hcond]
    rw [if_neg (by norm_num [CONFIG_separationRadius]),
      if_pos (by norm_num [CONFIG_neighborRadius])]
  have h2 : (dyList.filter
      (fun ja => ja.2.state ≠ BState.dead ∧ ja.2.state ≠ BState.dying)) = [] := by
    simp [dyList]
  intro hcontra
  rw [hcontra, h2] at h1
  simp [neighborScan] at h1

/- ========== boids.js : lifecycle state machine ========== -/

/-- markSelection(survivors, doomed, deathDuration): for each agent index
below the population count, doomed indices become Dying with the death
timer reset, remaining survivor indices become Alive (whatever their
previous state) with the death timer reset, all other indices keep their
state.  ms maps an index to its (state, death timer) pair; the passed
deathDuration is stored in a module variable and consumed by the Dying
countdown modelled in dyingSteps. -/
def markSelection (N : ℕ) (survivors doomed : List ℕ)
    (ms : ℕ → BState × ℚ) : ℕ → BState × ℚ :=
  fun i =>
    if i < N then
      (if i ∈ doomed then (BState.dying, 0)
       else if i ∈ survivors then (BState.alive, 0)
       else ms i)
    else ms i

/-- The death-timer component of one frame of updateBoidsLogic for one
agent: a Dying agent accumulates dt into its death timer and becomes Dead
at the first frame where the timer reaches the stored duration; a Dead
agent is skipped by the loop (state and timer frozen); Alive agents leave
the death timer untouched.  The Newborn branch of the source drives only
the separate newborn timer and the Newborn-to-Alive flip, which this
death-path projection does not model; the death path never reaches
Newborn. -/
def dyingStep (duration dt : ℚ) : BState × ℚ → BState × ℚ
  | (BState.dying, timer) =>
      let t2 := timer + dt
      (if duration ≤ t2 then BState.dead else BState.dying, t2)
  | s => s

/-- Iterated frames with the listed dt values. -/
def dyingSteps (duration : ℚ) (dts : List ℚ) (s : BState × ℚ) : BState × ℚ :=
  dts.foldl (fun st dt => dyingStep duration dt st) s

theorem dyingSteps_dead (duration : ℚ) (dts : List ℚ) (t : ℚ) :
    dyingSteps duration dts (BState.dead, t) = (BState.dead, t) := by
  induction dts with
  | nil => rfl
  | cons dt l ih => exact ih

theorem dyingSteps_dead_iff (duration : ℚ) (dts : List ℚ) (t0 : ℚ)
    (hnn : ∀ x ∈ dts, 0 ≤ x) :
    (dyingSteps duration dts (BState.dying, t0)).1 = BState.dead ↔
      (duration ≤ t0 + dts.sum ∧ dts ≠ []) := by
  induction dts generalizing t0 with
  | nil =>
      simp [dyingSteps]
  | cons dt l ih =>
      have hdt : 0 ≤ dt := hnn dt (List.mem_cons_self dt l)
      have hnl : ∀ x ∈ l, 0 ≤ x := fun x hx => hnn x (List.mem_cons_of_mem dt hx)
      have hsum : 0 ≤ l.sum := List.sum_nonneg hnl
      show (dyingSteps duration l (dyingStep duration dt (BState.dying, t0))).1 =
        BState.dead ↔ _
      unfold dyingStep
      dsimp only
      by_cases hdone : duration ≤ t0 + dt
      · rw [if_pos hdone]
        rw [dyingSteps_dead]
        simp only [List.sum_cons, ne_eq, List.cons_ne_nil, not_false_iff,
          and_true]
        constructor
        · intro _
          linarith
        · intro _
          trivial
      · rw [if_neg hdone]
        rw [ih (t0 + dt) hnl]
        simp only [List.sum_cons, ne_eq, List.cons_ne_nil, not_false_iff,
          and_true]
        constructor
        · rintro ⟨h, _⟩
          linarith
        · intro h
          refine ⟨by linarith, ?_⟩
          intro hl
          subst hl
          simp only [List.sum_nil, add_zero] at h
          exact hdone (by linarith)

/-- C6: an agent marked Dying (death timer reset to 0 by markSelection)
becomes Dead exactly when the accumulated frame times reach the duration
and never earlier: over any sequence of nonnegative dt values, the final
state is Dead if and only if their sum reaches the duration. -/
theorem c6_dying_transition (d : ℚ) (dts : List ℚ) (h0 : 0 < d)
    (hnn : ∀ x ∈ dts, 0 ≤ x) :
    ((dyingSteps d dts (BState.dying, 0)).1 = BState.dead ↔ d ≤ dts.sum) ∧
    (∀ (N : ℕ) (survivors doomed : List ℕ) (ms : ℕ → BState × ℚ) (i : ℕ),
      i < N → i ∈ doomed →
      markSelection N survivors doomed ms i = (BState.dying, 0)) := by
  constructor
  · rw [dyingSteps_dead_iff d dts 0 hnn]
    rw [zero_add]
    constructor
    · exact fun h => h.1
    · intro h
      refine ⟨h, ?_⟩
      intro hl
      subst hl
      simp only [List.sum_nil] at h
      exact absurd (lt_of_lt_of_le h0 h) (lt_irrefl 0)
  · intro N survivors doomed ms i hiN hid
    unfold markSelection
    rw [if_pos hiN, if_pos hid]

/-- C6 witness: duration 2 with two frames of dt = 1 each; the agent is
Dead exactly because 1 + 1 reaches 2. -/
theorem c6_dying_transition_witness :
    (0 < (2 : ℚ)) ∧ (∀ x ∈ ([1, 1] : List ℚ), 0 ≤ x) ∧
    (dyingSteps 2 [1, 1] (BState.dying, 0)).1 = BState.dead ∧
    markSelection 2 [0] [1] (fun _ => (BState.alive, 5)) 1 = (BState.dying, 0) := by
  have h0 : 0 < (2 : ℚ) := by norm_num
  have hnn : ∀ x ∈ ([1, 1] : List ℚ), 0 ≤ x := by
    intro x hx
    rcases List.mem_cons.mp hx with rfl | hx
    · norm_num
    · rcases List.mem_cons.mp hx with rfl | hx
      · norm_num
      · exact absurd hx (List.not_mem_nil x)
  refine ⟨h0, hnn, ?_, ?_⟩
  · exact (c6_dying_transition 2 [1, 1] h0 hnn).1.mpr (by norm_num)
  · exact (c6_dying_transition 2 [1, 1] h0 hnn).2 2 [0] [1] _ 1
      (by norm_num) (by simp)

/-- C10: markSelection turns every doomed index below the agent count into
Dying with a zeroed death timer (doomed wins when an index is in both
lists), every remaining survivor index into Alive with a zeroed death timer
regardless of its previous state (so a Dead or Newborn survivor becomes
Alive immediately, skipping the Newborn phase), and leaves every index in
neither list unchanged. -/
theorem c10_markSelection (N : ℕ) (survivors doomed : List ℕ)
    (ms : ℕ → BState × ℚ) (i : ℕ) (h : i < N) :
    (i ∈ doomed → markSelection N survivors doomed ms i = (BState.dying, 0)) ∧
    (i ∉ doomed → i ∈ survivors →
      markSelection N survivors doomed ms i = (BState.alive, 0)) ∧
    (i ∉ doomed → i ∉ survivors →
      markSelection N survivors doomed ms i = ms i) := by
  refine ⟨?_, ?_, ?_⟩
  · intro hid
    unfold markSelection
    rw [if_pos h, if_pos hid]
  · intro hnd his
    unfold markSelection
    rw [if_pos h, if_neg hnd, if_pos his]
  · intro hnd hns
    unfold markSelection
    rw [if_pos h, if_neg hnd, if_neg hns]

/-- The previous lifecycle snapshot for the markSelection witness: slot 0
was Dead, slot 1 Newborn, slot 2 Alive with a running timer. -/
def msW : ℕ → BState × ℚ :=
  fun i => if i = 0 then (BState.dead, 5)
    else if i = 1 then (BState.newborn, 1/2) else (BState.alive, 3)

/-- C10 witness: with survivors [0] and doomed [1] over three agents, the
dead slot 0 revives straight to Alive, slot 1 starts Dying with timer 0,
and slot 2 is untouched. -/
theorem c10_markSelection_witness :
    (1 : ℕ) < 3 ∧
    markSelection 3 [0] [1] msW 1 = (BState.dying, 0) ∧
    markSelection 3 [0] [1] msW 0 = (BState.alive, 0) ∧
    markSelection 3 [0] [1] msW 2 = msW 2 := by
  refine ⟨by norm_num, ?_, ?_, ?_⟩
  · exact (c10_markSelection 3 [0] [1] msW 1 (by norm_num)).1 (by simp)
  · exact (c10_markSelection 3 [0] [1] msW 0 (by norm_num)).2.1
      (by simp) (by simp)
  · exact (c10_markSelection 3 [0] [1] msW 2 (by norm_num)).2.2
      (by simp) (by simp)

/- ========== boids.js : slime-mold trail field ========== -/

def TRAIL_GRID_SIZE : ℕ := 128
def BOUND_RADIUS : ℚ := 100

/-- THREE.MathUtils.clamp(value, min, max) = Math.max(min, Math.min(max, value)). -/
def clampM (value min max : ℚ) : ℚ := Max.max min (Min.min max value)

/-- worldToTrailIndex(x, z): map world coordinates in [-R, R]^2 to the flat
cell index of the 128 x 128 grid, clamping to the grid bounds.  The clamped
fraction is nonnegative, so taking toNat of the floor is exact. -/
def worldToTrailIndex (x z : ℚ) : ℕ :=
  let u := (x + BOUND_RADIUS) / (BOUND_RADIUS * 2)
  let v := (z + BOUND_RADIUS) / (BOUND_RADIUS * 2)
  let ix := (⌊clampM u 0 (999/1000) * (TRAIL_GRID_SIZE : ℚ)⌋).toNat
  let iz := (⌊clampM v 0 (999/1000) * (TRAIL_GRID_SIZE : ℚ)⌋).toNat
  ix + iz * TRAIL_GRID_SIZE

/-- The trail grid, a cell-indexed field of scalars (the source's
Float32Array of length 128 * 128, zero-initialized). -/
def Trail := ℕ → ℚ

def initialTrail : Trail := fun _ => 0

/-- depositTrail(x, z, amount): add amount to the covering cell. -/
def depositTrail (g : Trail) (x z amount : ℚ) : Trail :=
  fun i => if i = worldToTrailIndex x z then g i + amount else g i

/-- decayTrail(): multiply every cell by the decay rate. -/
def decayTrail (rate : ℚ) (g : Trail) : Trail := fun i => g i * rate

/-- sampleTrail(x, z): read the covering cell, no interpolation. -/
def sampleTrail (g : Trail) (x z : ℚ) : ℚ := g (worldToTrailIndex x z)

/-- The operations that mutate the trail grid during simulation. -/
inductive TrailOp where
  | deposit (x z amount : ℚ)
  | decay
deriving DecidableEq, Repr

def applyTrailOp (rate : ℚ) (g : Trail) : TrailOp → Trail
  | TrailOp.deposit x z amount => depositTrail g x z amount
  | TrailOp.decay => decayTrail rate g

/-- Replay a history of deposits and decays from the zero-initialized grid. -/
def runTrailOps (rate : ℚ) (ops : List TrailOp) : Trail :=
  ops.foldl (applyTrailOp rate) initialTrail

/-- Whether an operation deposits into cell c. -/
def opTouches (c : ℕ) : TrailOp → Prop
  | TrailOp.deposit x z _ => worldToTrailIndex x z = c
  | TrailOp.decay => False

instance (c : ℕ) (op : TrailOp) : Decidable (opTouches c op) := by
  cases op <;> unfold opTouches <;> infer_instance

theorem trailOps_zero_cell (rate : ℚ) (ops : List TrailOp) (c : ℕ)
    (g : Trail) (hg : g c = 0) (hops : ∀ op ∈ ops, ¬ opTouches c op) :
    (ops.foldl (applyTrailOp rate) g) c = 0 := by
  induction ops generalizing g with
  | nil => exact hg
  | cons op t ih =>
      rw [List.foldl_cons]
      refine ih _ ?_ (fun o ho => hops o (List.mem_cons_of_mem op ho))
      cases op with
      | deposit x z amount =>
          have hne : ¬ worldToTrailIndex x z = c :=
            hops _ (List.mem_cons_self _ _)
          simp only [applyTrailOp, depositTrail]
          rw [if_neg (fun hc => hne hc.symm)]
          exact hg
      | decay =>
          simp only [applyTrailOp, decayTrail]
          rw [hg, zero_mul]

/-- C7: applying decayTrail k times multiplies every cell by rate^k — a
cell holding v ends at v * rate^k exactly (the rational model is exact
where the Float32 source carries rounding, hence the spec's float
tolerance) — and sampling at a world point whose covering cell was never
deposited into over any operation history yields 0. -/
theorem c7_trail (rate : ℚ) (k : ℕ) (g : Trail) (i : ℕ) (ops : List TrailOp)
    (x z : ℚ) (hops : ∀ op ∈ ops, ¬ opTouches (worldToTrailIndex x z) op) :
    ((decayTrail rate)^[k] g) i = g i * rate ^ k ∧
    sampleTrail (runTrailOps rate ops) x z = 0 := by
  constructor
  · induction k with
    | zero => simp
    | succ n ihn =>
        rw [Function.iterate_succ_apply']
        show ((decayTrail rate)^[n] g) i * rate = g i * rate ^ (n + 1)
        rw [ihn, pow_succ, mul_assoc]
  · exact trailOps_zero_cell rate ops _ initialTrail rfl hops

/-- A two-operation history: one deposit far from the queried point, one
decay pass. -/
def opsW : List TrailOp := [TrailOp.deposit 50 50 2, TrailOp.decay]

theorem worldToTrailIndex_50 : worldToTrailIndex 50 50 = 12384 := by
  norm_num [worldToTrailIndex, clampM, BOUND_RADIUS, TRAIL_GRID_SIZE]
  decide

theorem worldToTrailIndex_neg50 : worldToTrailIndex (-50) (-50) = 4128 := by
  norm_num [worldToTrailIndex, clampM, BOUND_RADIUS, TRAIL_GRID_SIZE]
  decide

/-- C7 witness: the trail theorem at rate 0.97, two decay iterations on a
cell holding 3, and the concrete far-away deposit history. -/
theorem c7_trail_witness :
    (∀ op ∈ opsW, ¬ opTouches (worldToTrailIndex (-50) (-50)) op) ∧
    ((decayTrail (97/100))^[2] (fun _ => 3) 0 = 3 * (97/100) ^ 2 ∧
     sampleTrail (runTrailOps (97/100) opsW) (-50) (-50) = 0) := by
  have hops : ∀ op ∈ opsW, ¬ opTouches (worldToTrailIndex (-50) (-50)) op := by
    intro op hop
    rcases List.mem_cons.mp hop with rfl | hop
    · simp only [opTouches]
      rw [worldToTrailIndex_50, worldToTrailIndex_neg50]
      norm_num
    · rcases List.mem_cons.mp hop with rfl | hop
      · simp only [opTouches]
        exact not_false
      · exact absurd hop (List.not_mem_nil op)
  exact ⟨hops, c7_trail (97/100) 2 (fun _ => 3) 0 opsW (-50) (-50) hops⟩

/- ========== boids.js : nutrient attraction ========== -/

/-- A 3-vector of reals.  getNutrientForce divides by Euclidean distances
and normalizes its result, so this part of the code is embedded over ℝ
(its definitions are noncomputable only because exact real square roots
are; the JavaScript source computes the same formulas in floating point). -/
structure RVec3 where
  x : ℝ
  y : ℝ
  z : ℝ

def RVec3.lengthSq (v : RVec3) : ℝ := v.x * v.x + v.y * v.y + v.z * v.z

noncomputable def RVec3.length (v : RVec3) : ℝ := Real.sqrt v.lengthSq

/-- THREE.Vector3.normalize = divideScalar(length || 1): a zero-length
vector is divided by 1, hence returned unchanged. -/
noncomputable def RVec3.normalize (v : RVec3) : RVec3 :=
  let l := v.length
  let d := if l = 0 then 1 else l
  ⟨v.x / d, v.y / d, v.z / d⟩

/-- One slot of the module-level _nutrients array. -/
structure Nutrient where
  pos : RVec3
  strength : ℝ
  active : Bool

/-- The squared distance the loop body computes from the query position to
a source. -/
def nutDistSq (n : Nutrient) (pos : RVec3) : ℝ :=
  (n.pos.x - pos.x) * (n.pos.x - pos.x) + (n.pos.y - pos.y) * (n.pos.y - pos.y)
    + (n.pos.z - pos.z) * (n.pos.z - pos.z)

/-- One iteration of the getNutrientForce loop, accumulating the weighted
unit directions and the total weight: inactive or nonpositive-strength
sources are skipped, as is any source closer than the 1e-4 squared-distance
epsilon. -/
noncomputable def nutrientStep (pos : RVec3) (acc : RVec3 × ℝ)
    (n : Nutrient) : RVec3 × ℝ :=
  if n.active = false ∨ n.strength ≤ 0 then acc
  else
    let dx := n.pos.x - pos.x
    let dy := n.pos.y - pos.y
    let dz := n.pos.z - pos.z
    let d2 := dx * dx + dy * dy + dz * dz
    if d2 < 1/10000 then acc
    else
      let dist := Real.sqrt d2
      let invDist := 1 / dist
      let weight := n.strength * invDist
      (⟨acc.1.x + dx * invDist * weight,
        acc.1.y + dy * invDist * weight,
        acc.1.z + dz * invDist * weight⟩, acc.2 + weight)

/-- getNutrientForce(pos): accumulate over all sources, return the zero
vector when the total weight or the averaged direction is negligible, and
the normalized average direction otherwise. -/
noncomputable def getNutrientForce (nutrients : List Nutrient)
    (pos : RVec3) : RVec3 :=
  let acc := nutrients.foldl (nutrientStep pos) (⟨0, 0, 0⟩, 0)
  if acc.2 ≤ 1/1000000 then ⟨0, 0, 0⟩
  else
    let dirAccum : RVec3 :=
      ⟨acc.1.x * (1 / acc.2), acc.1.y * (1 / acc.2), acc.1.z * (1 / acc.2)⟩
    if dirAccum.lengthSq < 1/1000000 then ⟨0, 0, 0⟩
    else dirAccum.normalize

theorem RVec3.lengthSq_nonneg (v : RVec3) : 0 ≤ v.lengthSq :=
  add_nonneg (add_nonneg (mul_self_nonneg _) (mul_self_nonneg _))
    (mul_self_nonneg _)

theorem RVec3.normalize_lengthSq (v : RVec3) (h : v.lengthSq ≠ 0) :
    v.normalize.lengthSq = 1 := by
  have hpos : 0 < v.lengthSq := lt_of_le_of_ne (RVec3.lengthSq_nonneg v) (Ne.symm h)
  have hl : RVec3.length v = Real.sqrt v.lengthSq := rfl
  have hlpos : 0 < RVec3.length v := by
    rw [hl]
    exact Real.sqrt_pos.mpr hpos
  unfold RVec3.normalize
  dsimp only
  rw [if_neg (ne_of_gt hlpos)]
  unfold RVec3.lengthSq at *
  rw [div_mul_div_comm, div_mul_div_comm, div_mul_div_comm,
    div_add_div_same, div_add_div_same]
  rw [show RVec3.length v * RVec3.length v =
      v.x * v.x + v.y * v.y + v.z * v.z from by
    rw [hl]
    exact Real.mul_self_sqrt (RVec3.lengthSq_nonneg v)]
  exact div_self h

theorem nutrientStep_skip (pos : RVec3) (acc : RVec3 × ℝ) (n : Nutrient)
    (h : nutDistSq n pos < 1/10000) : nutrientStep pos acc n = acc := by
  unfold nutrientStep
  dsimp only
  unfold nutDistSq at h
  split_ifs with h1
  · rfl
  · rfl

/-- The single source of the unit-direction example: strength 1 at distance
10 along +x from the origin. -/
noncomputable def srcX : Nutrient := ⟨⟨10, 0, 0⟩, 1, true⟩

/-- C8: getNutrientForce returns the zero vector on an empty (all-inactive)
source set; on every source set it returns either the zero vector or a unit
vector; for the single strength-1 source at distance 10 along +x it returns
exactly the +x unit vector; and a source within the squared-distance
epsilon of the query point contributes nothing. -/
theorem c8_nutrientForce :
    (∀ pos : RVec3, getNutrientForce [] pos = ⟨0, 0, 0⟩) ∧
    (∀ (ns : List Nutrient) (pos : RVec3),
      getNutrientForce ns pos = ⟨0, 0, 0⟩ ∨
        (getNutrientForce ns pos).length = 1) ∧
    getNutrientForce [srcX] ⟨0, 0, 0⟩ = ⟨1, 0, 0⟩ ∧
    (∀ (n : Nutrient) (ns1 ns2 : List Nutrient) (pos : RVec3),
      nutDistSq n pos < 1/10000 →
      getNutrientForce (ns1 ++ n :: ns2) pos =
        getNutrientForce (ns1 ++ ns2) pos) := by
  refine ⟨?_, ?_, ?_, ?_⟩
  · intro pos
    unfold getNutrientForce
    rw [List.foldl_nil]
    rw [if_pos (by norm_num)]
  · intro ns pos
    unfold getNutrientForce
    dsimp only
    split_ifs with h1 h2
    · exact Or.inl rfl
    · exact Or.inl rfl
    · right
      rw [RVec3.length, RVec3.normalize_lengthSq _ (by
        intro hzero
        rw [hzero] at h2
        exact h2 (by norm_num))]
      exact Real.sqrt_one
  · have h100 : Real.sqrt 100 = 10 := by
      rw [show (100 : ℝ) = 10 ^ 2 by norm_num]
      exact Real.sqrt_sq (by norm_num)
    have hfold : nutrientStep ⟨0, 0, 0⟩ (⟨0, 0, 0⟩, 0) srcX =
        ((⟨1/10, 0, 0⟩ : RVec3), (1/10 : ℝ)) := by
      unfold nutrientStep srcX
      dsimp only
      rw [if_neg (by norm_num)]
      rw [show ((10:ℝ) - 0) * ((10:ℝ) - 0) + ((0:ℝ) - 0) * ((0:ℝ) - 0)
          + ((0:ℝ) - 0) * ((0:ℝ) - 0) = 100 by norm_num]
      rw [if_neg (by norm_num), h100]
      norm_num
    have hvec : ((⟨(1/10) * (1 / (1/10 : ℝ)), 0 * (1 / (1/10 : ℝ)),
        0 * (1 / (1/10 : ℝ))⟩ : RVec3)) = (⟨1, 0, 0⟩ : RVec3) := by
      norm_num
    have hnorm : RVec3.normalize ⟨1, 0, 0⟩ = (⟨1, 0, 0⟩ : RVec3) := by
      unfold RVec3.normalize RVec3.length RVec3.lengthSq
      dsimp only
      rw [show (1:ℝ) * 1 + 0 * 0 + 0 * 0 = 1 by norm_num, Real.sqrt_one]
      rw [if_neg (by norm_num)]
      norm_num
    unfold getNutrientForce
    rw [List.foldl_cons, List.foldl_nil, hfold]
    dsimp only
    rw [if_neg (by norm_num)]
    rw [hvec]
    rw [if_neg (by norm_num [RVec3.lengthSq])]
    exact hnorm
  · intro n ns1 ns2 pos h
    unfold getNutrientForce
    rw [List.foldl_append, List.foldl_append, List.foldl_cons,
      nutrientStep_skip pos _ n h]

/-- A source within the epsilon distance of the origin. -/
noncomputable def nutNear : Nutrient := ⟨⟨1/200, 0, 0⟩, 1, true⟩

/-- C8 witness: the epsilon-skip clause applied at a source 0.005 away from
the query point. -/
theorem c8_nutrientForce_witness :
    nutDistSq nutNear ⟨0, 0, 0⟩ < 1/10000 ∧
    getNutrientForce ([] ++ nutNear :: []) ⟨0, 0, 0⟩ =
      getNutrientForce ([] ++ []) ⟨0, 0, 0⟩ := by
  have h : nutDistSq nutNear ⟨0, 0, 0⟩ < 1/10000 := by
    norm_num [nutDistSq, nutNear]
  exact ⟨h, c8_nutrientForce.2.2.2 nutNear [] [] ⟨0, 0, 0⟩ h⟩

end ServerGarden
